import Mathlib

/-!
Shallow embedding of `gdax/order_book.py` (class `OrderBook`).

The Python order book keeps two `SortedDict`s (`_asks` sorted ascending by
price, `_bids` sorted by `operator.neg`, i.e. descending by price), each
mapping a price to a dict from order-id to an order record.  We model a
Python dict as an insertion-ordered association list and a `SortedDict`
with key function `keyf` as an association list whose keys are kept
strictly ascending with respect to `keyf`.

Prices and sizes are `decimal.Decimal` values in the source; we model them
as rationals (`ℚ`), which gives the same exact comparison and arithmetic
semantics for all decimal values.

Python exceptions that can escape a method are modelled with `Except PyErr`.
-/

namespace Gdax

/-- Python exception kinds that the order-book code can raise. -/
inductive PyErr where
  | keyError
  | typeError
  | attributeError
deriving DecidableEq, Repr

/-- The order record stored in a price level: the dict
`{'id': …, 'side': …, 'price': …, 'size': …}` built by `_add`. -/
structure Order where
  id : String
  side : String
  price : ℚ
  size : ℚ
deriving DecidableEq, Repr

/-- A price level: a Python dict from order-id to order
(insertion-ordered association list). -/
abbrev Level := List (String × Order)

/-- One side of the book: a `SortedDict` from price to level, modelled as an
association list whose keys are sorted by the dict's key function. -/
abbrev SDict := List (ℚ × Level)

/-- Python `d.get(k)` on a level dict. -/
def dictGet (l : Level) (k : String) : Option Order :=
  match l with
  | [] => none
  | (k', v) :: rest => if k = k' then some v else dictGet rest k

/-- Python `d[k] = v` on a level dict: replace in place if the key exists,
otherwise append at the end (dicts are insertion-ordered). -/
def dictSet (k : String) (v : Order) : Level → Level
  | [] => [(k, v)]
  | (k', v') :: rest =>
      if k = k' then (k, v) :: rest else (k', v') :: dictSet k v rest

/-- Python `del d[k]` on a level dict whose key is known to be present
(keys are unique, so filtering is the same as deleting the occurrence). -/
def dictDel (l : Level) (k : String) : Level :=
  l.filter (fun kv => !decide (kv.1 = k))

/-- Python `sd.get(k)` on a `SortedDict`. -/
def sget (s : SDict) (k : ℚ) : Option Level :=
  match s with
  | [] => none
  | (k', v) :: rest => if k = k' then some v else sget rest k

/-- Python `sd[k] = v` on a `SortedDict` with key function `keyf`: replace
the value if the key is present, otherwise insert at the position that
keeps the keys sorted ascending by `keyf`. -/
def sset (keyf : ℚ → ℚ) (k : ℚ) (v : Level) : SDict → SDict
  | [] => [(k, v)]
  | (k', v') :: rest =>
      if k = k' then (k, v) :: rest
      else if keyf k < keyf k' then (k, v) :: (k', v') :: rest
      else (k', v') :: sset keyf k v rest

/-- Python `del sd[k]` on a `SortedDict` whose key is present. -/
def sdel (s : SDict) (k : ℚ) : SDict :=
  s.filter (fun pl => !decide (pl.1 = k))

/-- Python `sd.keys()` in sorted order. -/
def skeys (s : SDict) : List ℚ :=
  s.map Prod.fst

/-- A decoded feed message (a JSON dict); absent keys are `none`.
Numeric fields arrive as decimal strings and are given to `Decimal`,
modelled here as already-parsed rationals. -/
structure Message where
  type : Option String := none
  sequence : Option Int := none
  side : Option String := none
  price : Option ℚ := none
  size : Option ℚ := none
  remaining_size : Option ℚ := none
  new_size : Option ℚ := none
  order_id : Option String := none
  id : Option String := none
  maker_order_id : Option String := none
deriving DecidableEq, Repr

/-- The `OrderBook` state: `_asks`, `_bids`, `_sequence`, `_current_ticker`.
`notes` counts how many times the `on_orderbook_change` hook has fired
(the hook body is `pass`; the counter makes its invocations observable). -/
structure Book where
  asks : SDict
  bids : SDict
  sequence : Int
  ticker : Option Message
  notes : Nat
deriving DecidableEq, Repr

/-- The freshly constructed book of `OrderBook.__init__`:
empty sides, sentinel sequence `-1`, no ticker. -/
def initBook : Book :=
  { asks := [], bids := [], sequence := -1, ticker := none, notes := 0 }

/-- The side selected by `self._bids if order['side'] == 'buy' else self._asks`. -/
def sideOf (b : Book) (sd : String) : SDict :=
  if sd = "buy" then b.bids else b.asks

/-- The `SortedDict` key function of the selected side:
`_bids = SortedDict(operator.neg)` sorts descending, `_asks` ascending. -/
def keyfOf (sd : String) : ℚ → ℚ :=
  if sd = "buy" then Neg.neg else id

/-- Write back the (mutated) selected side. -/
def setSide (b : Book) (sd : String) (d : SDict) : Book :=
  if sd = "buy" then { b with bids := d } else { b with asks := d }

/-- Python `order['k']` for a required dict key: `KeyError` when absent. -/
def pyReq {α : Type} (o : Option α) : Except PyErr α :=
  match o with
  | some a => Except.ok a
  | none => Except.error PyErr.keyError

/-- The locked body of `_add` (lines 103-110): look up the level for the
order's price, create it if absent, otherwise insert/overwrite the order
in the existing level dict. -/
def addOrder (b : Book) (o : Order) : Book :=
  let d := sideOf b o.side
  match sget d o.price with
  | none => setSide b o.side (sset (keyfOf o.side) o.price [(o.id, o)] d)
  | some lvl => setSide b o.side (sset (keyfOf o.side) o.price (dictSet o.id o lvl) d)

/-- The size used by `_add`: `order.get('size') or order['remaining_size']`.
In every reachable call the present value is a nonempty decimal string or a
nonzero `Decimal`, both truthy, so the `or` reduces to key presence. -/
def sizeField (m : Message) : Option ℚ :=
  m.size.orElse (fun _ => m.remaining_size)

/-- The id used by `_add`: `order.get('order_id') or order['id']`
(ids are nonempty strings, so truthiness is key presence). -/
def idField (m : Message) : Option String :=
  m.order_id.orElse (fun _ => m.id)

/-- Model of `OrderBook._add` (lines 96-110): normalize the message into an order
record (raising `KeyError` for missing required keys) and insert it. -/
def _add (m : Message) (b : Book) : Except PyErr Book :=
  match idField m with
  | none => Except.error PyErr.keyError
  | some oid =>
  match m.side with
  | none => Except.error PyErr.keyError
  | some sd =>
  match m.price with
  | none => Except.error PyErr.keyError
  | some p =>
  match sizeField m with
  | none => Except.error PyErr.keyError
  | some sz => Except.ok (addOrder b { id := oid, side := sd, price := p, size := sz })

/-- Model of `OrderBook._remove` (lines 112-121): delete the order from its level
when the level exists; `del bids[id]` raises `KeyError` when the id is not
in the level; delete the level when it becomes empty. -/
def _remove (m : Message) (b : Book) : Except PyErr Book :=
  match m.order_id with
  | none => Except.error PyErr.keyError
  | some oid =>
  match m.price with
  | none => Except.error PyErr.keyError
  | some p =>
  match m.side with
  | none => Except.error PyErr.keyError
  | some sd =>
  match sget (sideOf b sd) p with
  | none => Except.ok b
  | some lvl =>
    match dictGet lvl oid with
    | none => Except.error PyErr.keyError
    | some _ =>
      if dictDel lvl oid = [] then Except.ok (setSide b sd (sdel (sideOf b sd) p))
      else Except.ok (setSide b sd (sset (keyfOf sd) p (dictDel lvl oid) (sideOf b sd)))

/-- Model of `OrderBook._match` (lines 123-136): `if bids:` skips an absent (or
empty) level; `bid = bids.get(maker_order_id)` then `bid['size']` raises
`TypeError` when the maker order is absent (`None` subscripted); exact
equality of remaining and traded size removes the order (and the level if
it empties), otherwise the size is decremented in place. -/
def _match (m : Message) (b : Book) : Except PyErr Book :=
  match m.size with
  | none => Except.error PyErr.keyError
  | some sz =>
  match m.price with
  | none => Except.error PyErr.keyError
  | some p =>
  match m.side with
  | none => Except.error PyErr.keyError
  | some sd =>
  match sget (sideOf b sd) p with
  | none => Except.ok b
  | some lvl =>
    if lvl = [] then Except.ok b
    else
      match m.maker_order_id with
      | none => Except.error PyErr.keyError
      | some maker =>
        match dictGet lvl maker with
        | none => Except.error PyErr.typeError
        | some o =>
          if o.size = sz then
            if dictDel lvl maker = [] then Except.ok (setSide b sd (sdel (sideOf b sd) p))
            else Except.ok (setSide b sd (sset (keyfOf sd) p (dictDel lvl maker) (sideOf b sd)))
          else
            Except.ok (setSide b sd
              (sset (keyfOf sd) p (dictSet maker { o with size := o.size - sz } lvl) (sideOf b sd)))

/-- Model of `OrderBook._change` (lines 138-155): missing `new_size` or `price` is
caught and returns unchanged; `bids.get(order['order_id'])` raises
`AttributeError` when the level is absent (`None.get`), and `order_id` is a
required key; a missing order in an existing level is a silent no-op;
otherwise the size is overwritten with `new_size` unconditionally. -/
def _change (m : Message) (b : Book) : Except PyErr Book :=
  match m.new_size with
  | none => Except.ok b
  | some ns =>
  match m.price with
  | none => Except.ok b
  | some p =>
  match m.side with
  | none => Except.error PyErr.keyError
  | some sd =>
  match sget (sideOf b sd) p with
  | none => Except.error PyErr.attributeError
  | some lvl =>
    match m.order_id with
    | none => Except.error PyErr.keyError
    | some oid =>
      match dictGet lvl oid with
      | none => Except.ok b
      | some o =>
        Except.ok (setSide b sd
          (sset (keyfOf sd) p (dictSet oid { o with size := ns } lvl) (sideOf b sd)))

/-- One `[price, size, order_id]` triple of the snapshot response. -/
structure SnapEntry where
  price : ℚ
  size : ℚ
  oid : String
deriving DecidableEq, Repr

/-- The snapshot returned by `get_product_order_book(product_id, level=3)`. -/
structure Snapshot where
  sequence : Int
  bids : List SnapEntry
  asks : List SnapEntry
deriving DecidableEq, Repr

/-- The order dict `reset_book` builds for a snapshot entry before handing
it to `_add`; with all four keys present `_add` reduces to `addOrder`. -/
def snapOrder (sd : String) (e : SnapEntry) : Order :=
  { id := e.oid, side := sd, price := e.price, size := e.size }

/-- Model of `OrderBook.reset_book` (lines 41-58): fetch the snapshot and `_add`
every snapshot order, then overwrite `_sequence` with the snapshot's
sequence.  Note the pre-existing `_bids`/`_asks` contents are NOT cleared:
the snapshot is merged into whatever the book already holds. -/
def reset_book (snap : Snapshot) (b : Book) : Book :=
  let b1 := snap.bids.foldl (fun acc e => addOrder acc (snapOrder "buy" e)) b
  let b2 := snap.asks.foldl (fun acc e => addOrder acc (snapOrder "sell" e)) b1
  { b2 with sequence := snap.sequence }

/-- Model of `OrderBook.on_orderbook_change` (lines 88-89): the hook body is `pass`;
we count its invocations. -/
def on_orderbook_change (b : Book) : Book :=
  { b with notes := b.notes + 1 }

/-- Model of `OrderBook.on_sequence_gap` (lines 91-94): log the gap and re-fetch. -/
def on_sequence_gap (snap : Snapshot) (b : Book) : Book :=
  reset_book snap b

/-- Run the diff operation and fire the hook on success. -/
def notifyOk (r : Except PyErr Book) : Except PyErr Book :=
  match r with
  | Except.error e => Except.error e
  | Except.ok b => Except.ok (on_orderbook_change b)

/-- The in-order branch of `on_message` (lines 72-85): dispatch on
`message['type']`; a `done` without a `price` key and every unrecognized
type fall through all branches and apply nothing. -/
def applyInOrder (b : Book) (m : Message) (t : String) : Except PyErr Book :=
  if t = "open" then notifyOk (_add m b)
  else if t = "done" ∧ m.price.isSome then notifyOk (_remove m b)
  else if t = "match" then
    notifyOk
      (match _match m b with
       | Except.error e => Except.error e
       | Except.ok b' => Except.ok { b' with ticker := some m })
  else if t = "change" then notifyOk (_change m b)
  else Except.ok b

/-- Model of `OrderBook.on_message` (lines 60-86): a missing `sequence` key returns
immediately; the sentinel sequence `-1` first loads the snapshot; stale
events (`sequence <= self._sequence`) are dropped; gapped events trigger
`on_sequence_gap` and are themselves discarded; otherwise the event is
applied and `_sequence` is set to the event's sequence (also for types that
matched no branch, and for `match` after storing `_current_ticker`). -/
def on_message (snap : Snapshot) (b : Book) (m : Message) : Except PyErr Book :=
  match m.sequence with
  | none => Except.ok b
  | some s =>
    let b1 := if b.sequence = -1 then reset_book snap b else b
    if s ≤ b1.sequence then Except.ok b1
    else if b1.sequence + 1 < s then Except.ok (on_sequence_gap snap b1)
    else
      match m.type with
      | none => Except.error PyErr.keyError
      | some t =>
        match applyInOrder b1 m t with
        | Except.error e => Except.error e
        | Except.ok b2 => Except.ok { b2 with sequence := s }

/-- Model of `OrderBook.get_current_ticker` (lines 157-158). -/
def get_current_ticker (b : Book) : Option Message :=
  b.ticker

/-- Model of `OrderBook.get_ask` (lines 175-177): first key of `_asks`, else `None`. -/
def get_ask (b : Book) : Option ℚ :=
  (skeys b.asks).head?

/-- Model of `OrderBook.get_asks` (lines 179-180): `self._asks.get(price, {})`. -/
def get_asks (b : Book) (p : ℚ) : Level :=
  (sget b.asks p).getD []

/-- Model of `OrderBook.get_bid` (lines 182-184): first key of `_bids`, else `None`. -/
def get_bid (b : Book) : Option ℚ :=
  (skeys b.bids).head?

/-- Model of `OrderBook.get_bids` (lines 186-187): `self._bids.get(price, {})`. -/
def get_bids (b : Book) (p : ℚ) : Level :=
  (sget b.bids p).getD []

/-- One `[order['price'], order['size'], order['id']]` row of
`get_current_book`. -/
abbrev Row := ℚ × ℚ × String

/-- Subscripting a Python `str` with a string key raises `TypeError`
(`order['price']` where `order` is an order-id string). -/
def strGetItem (α : Type) (_s : String) (_key : String) : Except PyErr α :=
  Except.error PyErr.typeError

/-- The row `get_current_book` tries to build for one loop iteration.
`for order in asks` iterates the level DICT, so `order` is bound to each
KEY (an order-id string) and every subscript raises `TypeError`. -/
def rowOf (oid : String) : Except PyErr Row :=
  match strGetItem ℚ oid "price" with
  | Except.error e => Except.error e
  | Except.ok p =>
  match strGetItem ℚ oid "size" with
  | Except.error e => Except.error e
  | Except.ok sz =>
  match strGetItem String oid "id" with
  | Except.error e => Except.error e
  | Except.ok i => Except.ok (p, sz, i)

/-- Rows contributed by one level of `get_current_book`'s nested loop. -/
def levelRows : Level → Except PyErr (List Row)
  | [] => Except.ok []
  | (oid, _) :: rest =>
    match rowOf oid with
    | Except.error e => Except.error e
    | Except.ok r =>
      match levelRows rest with
      | Except.error e => Except.error e
      | Except.ok rs => Except.ok (r :: rs)

/-- Rows contributed by one side of `get_current_book`. -/
def sideRows : SDict → Except PyErr (List Row)
  | [] => Except.ok []
  | (_, lvl) :: rest =>
    match levelRows lvl with
    | Except.error e => Except.error e
    | Except.ok rs =>
      match sideRows rest with
      | Except.error e => Except.error e
      | Except.ok rs' => Except.ok (rs ++ rs')

/-- The dict returned by `get_current_book`. -/
structure BookView where
  sequence : Int
  asks : List Row
  bids : List Row
deriving DecidableEq, Repr

/-- Model of `OrderBook.get_current_book` (lines 160-173): the current sequence plus
the rows of both sides (which raise `TypeError` as soon as either side has
an order, because the loop iterates dict keys). -/
def get_current_book (b : Book) : Except PyErr BookView :=
  match sideRows b.asks with
  | Except.error e => Except.error e
  | Except.ok asksRows =>
    match sideRows b.bids with
    | Except.error e => Except.error e
    | Except.ok bidsRows =>
      Except.ok { sequence := b.sequence, asks := asksRows, bids := bidsRows }

end Gdax

namespace Gdax

/-! Concrete states used by the claim theorems. -/

/-- A resting bid order `A` at price 100, size 5. -/
def ordA : Order := { id := "A", side := "buy", price := 100, size := 5 }

/-- A synced book at sequence 10 holding only order `A` on the bid side. -/
def bookWithA : Book :=
  { asks := [], bids := [(100, [("A", ordA)])], sequence := 10, ticker := none, notes := 0 }

/-- A snapshot at sequence 20 with an empty book. -/
def emptySnap20 : Snapshot := { sequence := 20, bids := [], asks := [] }

/-- A snapshot at sequence 10 whose only order is bid `A` (100, 5). -/
def snapA10 : Snapshot := { sequence := 10, bids := [⟨100, 5, "A"⟩], asks := [] }

/-- A snapshot at sequence 7 with a single bid order. -/
def snapOne7 : Snapshot := { sequence := 7, bids := [⟨100, 5, "A"⟩], asks := [] }

end Gdax

namespace Gdax

/-- C1: a gapped event (sequence 12 against current sequence 10) triggers the
resync, the snapshot's sequence 20 becomes the stored sequence and the
event's own diff is not applied — but the resync is a merge, not a total
replacement: the pre-gap bid order `A` survives even though the freshly
fetched snapshot is empty, so the store does not equal the snapshot. -/
theorem resync_merges_pre_gap_state :
    emptySnap20.bids = [] ∧ emptySnap20.asks = [] ∧
    on_message emptySnap20 bookWithA { sequence := some 12, type := some "open" } =
      Except.ok { bookWithA with sequence := 20 } ∧
    (Book.bids { bookWithA with sequence := 20 }) ≠ [] := by
  refine ⟨rfl, rfl, rfl, ?_⟩
  decide

/-- C2: loading a snapshot with one order and then querying the full book
raises `TypeError` instead of returning the order: `get_current_book`
iterates each level dict directly, binding the order-id STRING, and then
subscripts it with `'price'`. -/
theorem round_trip_raises_type_error :
    (reset_book snapOne7 initBook).bids ≠ [] ∧
    get_current_book (reset_book snapOne7 initBook) = Except.error PyErr.typeError := by
  refine ⟨by decide, rfl⟩

/-- C3: lookup misses are not silent no-ops: `_remove` raises `KeyError`
when the level at 100 exists but holds no order `B`; `_match` raises
`TypeError` when the maker order `B` is absent from the existing level;
`_change` raises `AttributeError` when no level exists at price 200. -/
theorem lookup_miss_raises :
    _remove { order_id := some "B", price := some 100, side := some "buy" } bookWithA =
      Except.error PyErr.keyError ∧
    _match { size := some 2, price := some 100, side := some "buy",
             maker_order_id := some "B" } bookWithA = Except.error PyErr.typeError ∧
    _change { new_size := some 1, price := some 200, side := some "buy",
              order_id := some "A" } bookWithA = Except.error PyErr.attributeError := by
  exact ⟨rfl, rfl, rfl⟩

/-- C4 counterexample: an in-order `open` event that lacks its required
`side` field is not a no-op — `_add` raises `KeyError` to the caller. -/
theorem missing_field_raises :
    on_message emptySnap20 bookWithA
      { sequence := some 11, type := some "open", id := some "X",
        price := some 50, size := some 1 } = Except.error PyErr.keyError := by
  exact rfl

/-- C5 counterexample: an in-order event of type `received` is processed
(the stored sequence advances to 11) yet the `on_orderbook_change` hook is
never invoked, so the hook does not fire once per processed event. -/
theorem processed_event_without_notification :
    on_message emptySnap20 bookWithA { sequence := some 11, type := some "received" } =
      Except.ok { bookWithA with sequence := 11 } ∧
    (Book.notes { bookWithA with sequence := 11 }) = bookWithA.notes := by
  exact ⟨rfl, rfl⟩

/-- C6 counterexample: a `change` event with `new_size = 0` overwrites the
resting order's size with 0 and leaves it in the store, violating the
zero-size-orders-are-removed invariant. -/
theorem change_retains_zero_size_order :
    _change { new_size := some 0, price := some 100, side := some "buy",
              order_id := some "A" } bookWithA =
      Except.ok { bookWithA with bids := [(100, [("A", { ordA with size := 0 })])] } ∧
    dictGet (get_bids { bookWithA with bids := [(100, [("A", { ordA with size := 0 })])] } 100) "A" =
      some { ordA with size := 0 } := by
  exact ⟨rfl, rfl⟩

/-- C8 counterexample: with the sentinel sequence `-1`, an event whose
sequence `-1 ≤ cur` is NOT dropped unchanged: the sentinel branch loads the
snapshot first, so the book contents and the stored sequence both change. -/
theorem stale_at_sentinel_changes_state :
    on_message snapA10 initBook { sequence := some (-1) } = Except.ok bookWithA ∧
    bookWithA.sequence ≠ initBook.sequence ∧ bookWithA.bids ≠ initBook.bids := by
  refine ⟨rfl, by decide, by decide⟩

/-- C10 counterexample: with the sentinel sequence `-1`, an event with
sequence `cur + 1 = 0` and unrecognized type `received` does not leave the
sides unchanged, nor does the stored sequence become 0: the sentinel branch
loads the snapshot (populating the bid side, sequence 10) and the event is
then dropped as stale. -/
theorem unknown_type_at_sentinel_changes_book :
    on_message snapA10 initBook { sequence := some 0, type := some "received" } =
      Except.ok bookWithA ∧
    bookWithA.sequence ≠ 0 ∧ bookWithA.bids ≠ initBook.bids := by
  refine ⟨rfl, by decide, by decide⟩

end Gdax

namespace Gdax

/-! Frame lemmas: the diff operations never touch `_sequence`,
`_current_ticker` or the notification hook count. -/

@[simp] theorem setSide_notes (b : Book) (sd : String) (d : SDict) :
    (setSide b sd d).notes = b.notes := by
  unfold setSide; split <;> rfl

@[simp] theorem setSide_sequence (b : Book) (sd : String) (d : SDict) :
    (setSide b sd d).sequence = b.sequence := by
  unfold setSide; split <;> rfl

@[simp] theorem setSide_ticker (b : Book) (sd : String) (d : SDict) :
    (setSide b sd d).ticker = b.ticker := by
  unfold setSide; split <;> rfl

@[simp] theorem addOrder_notes (b : Book) (o : Order) :
    (addOrder b o).notes = b.notes := by
  simp only [addOrder]; split <;> simp

theorem _add_notes {m : Message} {b b' : Book} (h : _add m b = Except.ok b') :
    b'.notes = b.notes := by
  unfold _add at h
  repeat' split at h
  any_goals simp_all
  all_goals (try (subst b'))
  all_goals simp

theorem _remove_notes {m : Message} {b b' : Book} (h : _remove m b = Except.ok b') :
    b'.notes = b.notes := by
  unfold _remove at h
  repeat' split at h
  any_goals simp_all
  all_goals (try (subst b'))
  all_goals simp

theorem _match_notes {m : Message} {b b' : Book} (h : _match m b = Except.ok b') :
    b'.notes = b.notes := by
  unfold _match at h
  repeat' split at h
  any_goals simp_all
  all_goals (try (subst b'))
  all_goals simp

theorem _change_notes {m : Message} {b b' : Book} (h : _change m b = Except.ok b') :
    b'.notes = b.notes := by
  unfold _change at h
  repeat' split at h
  any_goals simp_all
  all_goals (try (subst b'))
  all_goals simp

end Gdax

namespace Gdax

/-- C10 (amended with a non-sentinel current sequence): an in-order event
whose type matches no dispatch branch — and likewise a `done` event lacking
`price` — leaves both book sides, the ticker and the hook count unchanged
and only advances the stored sequence. -/
theorem unknown_type_advances_sequence_only (snap : Snapshot) (b : Book) (m : Message)
    (s : Int) (t : String)
    (hcur : b.sequence ≠ -1) (hs : m.sequence = some s) (hin : s = b.sequence + 1)
    (ht : m.type = some t)
    (hopen : t ≠ "open") (hmat : t ≠ "match") (hchg : t ≠ "change")
    (hdone : t = "done" → m.price = none) :
    on_message snap b m = Except.ok { b with sequence := s } := by
  have hnotstale : ¬ s ≤ b.sequence := by omega
  have hnogap : ¬ b.sequence + 1 < s := by omega
  have hdp : ¬ (t = "done" ∧ m.price.isSome) := by
    rintro ⟨h1, h2⟩
    rw [hdone h1] at h2
    simp at h2
  simp [on_message, hs, hcur, hnotstale, hnogap, ht, applyInOrder, hopen, hmat, hchg, hdp]

/-- C10 witness: advancing past a synced book with a `received` event. -/
theorem unknown_type_advances_sequence_only_witness :
    on_message emptySnap20 bookWithA { sequence := some 11, type := some "received" } =
      Except.ok { bookWithA with sequence := 11 } := by
  exact unknown_type_advances_sequence_only emptySnap20 bookWithA
    { sequence := some 11, type := some "received" } 11 "received"
    (by decide) rfl (by decide) rfl (by decide) (by decide) (by decide)
    (by intro h; exact absurd h (by decide))

/-- C8 (amended with a non-sentinel current sequence): a stale event
(`s ≤ cur`) is dropped with the book, ticker, sequence and hook count all
unchanged; consequently re-delivering an already-applied in-order event
(provided its sequence is not the sentinel value `-1`) is a no-op. -/
theorem stale_event_dropped (snap : Snapshot) (b : Book) (m : Message) (s : Int)
    (hs : m.sequence = some s) :
    (b.sequence ≠ -1 → s ≤ b.sequence → on_message snap b m = Except.ok b) ∧
    (b.sequence ≠ -1 → s = b.sequence + 1 → s ≠ -1 →
      ∀ b', on_message snap b m = Except.ok b' → on_message snap b' m = Except.ok b') := by
  constructor
  · intro hcur hle
    simp [on_message, hs, hcur, hle]
  · intro hcur hin hsne b' hok
    have hnotstale : ¬ s ≤ b.sequence := by omega
    have hnogap : ¬ b.sequence + 1 < s := by omega
    have hseq : b'.sequence = s := by
      cases htype : m.type with
      | none =>
        have hred : on_message snap b m = Except.error PyErr.keyError := by
          simp [on_message, hs, hcur, hnotstale, hnogap, htype]
        rw [hred] at hok
        simp at hok
      | some t =>
        cases happ : applyInOrder b m t with
        | error e =>
          have hred : on_message snap b m = Except.error e := by
            simp [on_message, hs, hcur, hnotstale, hnogap, htype, happ]
          rw [hred] at hok
          simp at hok
        | ok b2 =>
          have hred : on_message snap b m = Except.ok { b2 with sequence := s } := by
            simp [on_message, hs, hcur, hnotstale, hnogap, htype, happ]
          rw [hred] at hok
          simp only [Except.ok.injEq] at hok
          rw [← hok]
    have hsle : s ≤ b'.sequence := by omega
    have hbne : b'.sequence ≠ -1 := by omega
    simp [on_message, hs, hbne, hsle]

/-- C8 witness: a stale event (sequence 9 against current sequence 10) is
dropped, and re-delivering the in-order `received` event at sequence 11 a
second time leaves the advanced book unchanged. -/
theorem stale_event_dropped_witness :
    on_message emptySnap20 bookWithA { sequence := some 9 } = Except.ok bookWithA ∧
    on_message emptySnap20 { bookWithA with sequence := 11 }
      { sequence := some 11, type := some "received" } =
      Except.ok { bookWithA with sequence := 11 } := by
  constructor
  · exact (stale_event_dropped emptySnap20 bookWithA { sequence := some 9 } 9 rfl).1
      (by decide) (by decide)
  · exact (stale_event_dropped emptySnap20 bookWithA
      { sequence := some 11, type := some "received" } 11 rfl).2
      (by decide) (by decide) (by decide) { bookWithA with sequence := 11 } rfl

end Gdax

namespace Gdax

/-- Helper: with a non-sentinel current sequence, an in-order event reduces
`on_message` to the dispatch result, with the sequence overwritten on
success. -/
theorem on_message_inorder (snap : Snapshot) (b : Book) (m : Message) (s : Int)
    (t : String)
    (hcur : b.sequence ≠ -1) (hs : m.sequence = some s) (hin : s = b.sequence + 1)
    (ht : m.type = some t) :
    on_message snap b m =
      (match applyInOrder b m t with
       | Except.error e => Except.error e
       | Except.ok b2 => Except.ok { b2 with sequence := s }) := by
  have hnotstale : ¬ s ≤ b.sequence := by omega
  have hnogap : ¬ b.sequence + 1 < s := by omega
  simp [on_message, hs, hcur, hnotstale, hnogap, ht]

/-- C4 (amended): only the guarded absences are unconditional no-ops — a
missing `sequence` (event ignored entirely), a `done` without `price` (no
mutation, no notification, sequence advances), and a `change` without
`new_size` or without `price` (store unchanged, observer fires, sequence
advances).  Other missing required fields are not uniformly benign: an
in-order event with no `type` raises `KeyError`, as does an `open` missing
any of id/side/price/size, a priced `done` missing `order_id` or `side`, a
`match` missing `size`, `price` or `side`, and a `change` (with `new_size`
and `price`) missing `side`.  A `match` missing `maker_order_id` raises
`KeyError` only when a non-empty level exists at its price; with no level
there it is a benign no-op that still stores the ticker, notifies, and
advances the sequence.  A `change` missing `order_id` raises
`AttributeError` when the level at its price is absent and `KeyError` when
it exists. -/
theorem missing_guarded_fields_are_no_ops (snap : Snapshot) (b : Book) (m : Message)
    (s : Int) :
    (m.sequence = none → on_message snap b m = Except.ok b) ∧
    (b.sequence ≠ -1 → m.sequence = some s → s = b.sequence + 1 →
      m.type = some "done" → m.price = none →
      on_message snap b m = Except.ok { b with sequence := s }) ∧
    (b.sequence ≠ -1 → m.sequence = some s → s = b.sequence + 1 →
      m.type = some "change" → m.new_size = none →
      on_message snap b m = Except.ok { on_orderbook_change b with sequence := s }) ∧
    (b.sequence ≠ -1 → m.sequence = some s → s = b.sequence + 1 →
      m.type = some "change" → m.price = none →
      on_message snap b m = Except.ok { on_orderbook_change b with sequence := s }) ∧
    (b.sequence ≠ -1 → m.sequence = some s → s = b.sequence + 1 → m.type = none →
      on_message snap b m = Except.error PyErr.keyError) ∧
    (b.sequence ≠ -1 → m.sequence = some s → s = b.sequence + 1 →
      m.type = some "open" →
      (idField m = none ∨ m.side = none ∨ m.price = none ∨ sizeField m = none) →
      on_message snap b m = Except.error PyErr.keyError) ∧
    (b.sequence ≠ -1 → m.sequence = some s → s = b.sequence + 1 →
      m.type = some "done" → m.price.isSome →
      (m.order_id = none ∨ m.side = none) →
      on_message snap b m = Except.error PyErr.keyError) ∧
    (b.sequence ≠ -1 → m.sequence = some s → s = b.sequence + 1 →
      m.type = some "match" →
      (m.size = none ∨ m.price = none ∨ m.side = none) →
      on_message snap b m = Except.error PyErr.keyError) ∧
    (b.sequence ≠ -1 → m.sequence = some s → s = b.sequence + 1 →
      m.type = some "match" → ∀ sz p sd, m.size = some sz → m.price = some p →
      m.side = some sd → m.maker_order_id = none → sget (sideOf b sd) p = none →
      on_message snap b m =
        Except.ok { on_orderbook_change { b with ticker := some m } with
          sequence := s }) ∧
    (b.sequence ≠ -1 → m.sequence = some s → s = b.sequence + 1 →
      m.type = some "match" → ∀ sz p sd lvl, m.size = some sz → m.price = some p →
      m.side = some sd → m.maker_order_id = none → sget (sideOf b sd) p = some lvl →
      lvl ≠ [] → on_message snap b m = Except.error PyErr.keyError) ∧
    (b.sequence ≠ -1 → m.sequence = some s → s = b.sequence + 1 →
      m.type = some "change" → ∀ ns p sd, m.new_size = some ns → m.price = some p →
      m.side = some sd → m.order_id = none → sget (sideOf b sd) p = none →
      on_message snap b m = Except.error PyErr.attributeError) ∧
    (b.sequence ≠ -1 → m.sequence = some s → s = b.sequence + 1 →
      m.type = some "change" → ∀ ns p sd lvl, m.new_size = some ns →
      m.price = some p → m.side = some sd → m.order_id = none →
      sget (sideOf b sd) p = some lvl →
      on_message snap b m = Except.error PyErr.keyError) ∧
    (b.sequence ≠ -1 → m.sequence = some s → s = b.sequence + 1 →
      m.type = some "change" → ∀ ns p, m.new_size = some ns → m.price = some p →
      m.side = none → on_message snap b m = Except.error PyErr.keyError) := by
  refine ⟨?_, ?_, ?_, ?_, ?_, ?_, ?_, ?_, ?_, ?_, ?_, ?_, ?_⟩
  · intro hsq
    simp [on_message, hsq]
  · intro hcur hs hin ht hp
    rw [on_message_inorder snap b m s "done" hcur hs hin ht]
    simp [applyInOrder, hp]
  · intro hcur hs hin ht hns
    rw [on_message_inorder snap b m s "change" hcur hs hin ht]
    simp [applyInOrder, _change, hns, notifyOk, on_orderbook_change]
  · intro hcur hs hin ht hp
    rw [on_message_inorder snap b m s "change" hcur hs hin ht]
    have hch : _change m b = Except.ok b := by
      cases hns : m.new_size with
      | none => simp [_change, hns]
      | some ns => simp [_change, hns, hp]
    simp [applyInOrder, notifyOk, hch, on_orderbook_change]
  · intro hcur hs hin ht
    have hnotstale : ¬ s ≤ b.sequence := by omega
    have hnogap : ¬ b.sequence + 1 < s := by omega
    simp [on_message, hs, hcur, hnotstale, hnogap, ht]
  · intro hcur hs hin ht hmiss
    rw [on_message_inorder snap b m s "open" hcur hs hin ht]
    have hadd : _add m b = Except.error PyErr.keyError := by
      rcases hmiss with hid | hsd | hp | hsz
      · simp [_add, hid]
      · cases hid : idField m with
        | none => simp [_add, hid]
        | some oid => simp [_add, hid, hsd]
      · cases hid : idField m with
        | none => simp [_add, hid]
        | some oid =>
          cases hside : m.side with
          | none => simp [_add, hid, hside]
          | some sd => simp [_add, hid, hside, hp]
      · cases hid : idField m with
        | none => simp [_add, hid]
        | some oid =>
          cases hside : m.side with
          | none => simp [_add, hid, hside]
          | some sd =>
            cases hprice : m.price with
            | none => simp [_add, hid, hside, hprice]
            | some p => simp [_add, hid, hside, hprice, hsz]
    simp [applyInOrder, notifyOk, hadd]
  · intro hcur hs hin ht hps hmiss
    rw [on_message_inorder snap b m s "done" hcur hs hin ht]
    obtain ⟨p, hp⟩ := Option.isSome_iff_exists.mp hps
    have hrem : _remove m b = Except.error PyErr.keyError := by
      rcases hmiss with hoid | hsd
      · simp [_remove, hoid]
      · cases hoid : m.order_id with
        | none => simp [_remove, hoid]
        | some oid => simp [_remove, hoid, hp, hsd]
    simp [applyInOrder, notifyOk, hrem, hps]
  · intro hcur hs hin ht hmiss
    rw [on_message_inorder snap b m s "match" hcur hs hin ht]
    have hmat : _match m b = Except.error PyErr.keyError := by
      rcases hmiss with hsz | hp | hsd
      · simp [_match, hsz]
      · cases hsize : m.size with
        | none => simp [_match, hsize]
        | some sz => simp [_match, hsize, hp]
      · cases hsize : m.size with
        | none => simp [_match, hsize]
        | some sz =>
          cases hprice : m.price with
          | none => simp [_match, hsize, hprice]
          | some p => simp [_match, hsize, hprice, hsd]
    simp [applyInOrder, notifyOk, hmat]
  · intro hcur hs hin ht sz p sd hsz hp hsd hmk hg
    rw [on_message_inorder snap b m s "match" hcur hs hin ht]
    simp [applyInOrder, notifyOk, _match, hsz, hp, hsd, hg, on_orderbook_change]
  · intro hcur hs hin ht sz p sd lvl hsz hp hsd hmk hg hne
    rw [on_message_inorder snap b m s "match" hcur hs hin ht]
    simp [applyInOrder, notifyOk, _match, hsz, hp, hsd, hg, hne, hmk]
  · intro hcur hs hin ht ns p sd hns hp hsd hoid hg
    rw [on_message_inorder snap b m s "change" hcur hs hin ht]
    simp [applyInOrder, notifyOk, _change, hns, hp, hsd, hg]
  · intro hcur hs hin ht ns p sd lvl hns hp hsd hoid hg
    rw [on_message_inorder snap b m s "change" hcur hs hin ht]
    simp [applyInOrder, notifyOk, _change, hns, hp, hsd, hg, hoid]
  · intro hcur hs hin ht ns p hns hp hsd
    rw [on_message_inorder snap b m s "change" hcur hs hin ht]
    simp [applyInOrder, notifyOk, _change, hns, hp, hsd]

/-- The match message of the C4 witness: no `maker_order_id`, priced at a
level the book does not hold. -/
def mMatchNoMaker : Message :=
  { sequence := some 11, type := some "match", size := some 2, price := some 50,
    side := some "buy" }

/-- The change message of the C4 witness lacking `price`. -/
def mChangeNoPrice : Message :=
  { sequence := some 11, type := some "change", new_size := some 3 }

/-- C4 witness: a sequence-less event is ignored; a `done` with no `price`
advances the sequence only; a `change` with no `price` is a notified no-op;
a `match` with no `maker_order_id` at an absent level is a benign no-op
that stores the ticker, notifies, and advances the sequence. -/
theorem missing_guarded_fields_are_no_ops_witness :
    on_message emptySnap20 bookWithA ({} : Message) = Except.ok bookWithA ∧
    on_message emptySnap20 bookWithA { sequence := some 11, type := some "done" } =
      Except.ok { bookWithA with sequence := 11 } ∧
    on_message emptySnap20 bookWithA mChangeNoPrice =
      Except.ok { on_orderbook_change bookWithA with sequence := 11 } ∧
    on_message emptySnap20 bookWithA mMatchNoMaker =
      Except.ok { on_orderbook_change { bookWithA with ticker := some mMatchNoMaker }
        with sequence := 11 } := by
  refine ⟨?_, ?_, ?_, ?_⟩
  · exact (missing_guarded_fields_are_no_ops emptySnap20 bookWithA ({} : Message) 0).1 rfl
  · exact (missing_guarded_fields_are_no_ops emptySnap20 bookWithA
      { sequence := some 11, type := some "done" } 11).2.1 (by decide) rfl (by decide) rfl rfl
  · exact (missing_guarded_fields_are_no_ops emptySnap20 bookWithA
      mChangeNoPrice 11).2.2.2.1 (by decide) rfl (by decide) rfl rfl
  · exact (missing_guarded_fields_are_no_ops emptySnap20 bookWithA
      mMatchNoMaker 11).2.2.2.2.2.2.2.2.1 (by decide) rfl (by decide) rfl
      2 50 "buy" rfl rfl rfl rfl rfl

/-- Hook-count effect of the in-order dispatch: exactly one notification
when a branch fired, none otherwise. -/
theorem applyInOrder_notes {b : Book} {m : Message} {t : String} {b2 : Book}
    (h : applyInOrder b m t = Except.ok b2) :
    b2.notes = b.notes +
      (if t = "open" ∨ (t = "done" ∧ m.price.isSome) ∨ t = "match" ∨ t = "change"
       then 1 else 0) := by
  by_cases h1 : t = "open"
  · rw [applyInOrder, if_pos h1] at h
    cases ha : _add m b with
    | error e => rw [ha] at h; simp [notifyOk] at h
    | ok ba =>
      rw [ha] at h
      simp only [notifyOk, Except.ok.injEq] at h
      subst b2
      simp [on_orderbook_change, _add_notes ha, h1]
  · rw [applyInOrder, if_neg h1] at h
    by_cases h2 : t = "done" ∧ m.price.isSome
    · rw [if_pos h2] at h
      cases ha : _remove m b with
      | error e => rw [ha] at h; simp [notifyOk] at h
      | ok ba =>
        rw [ha] at h
        simp only [notifyOk, Except.ok.injEq] at h
        subst b2
        simp [on_orderbook_change, _remove_notes ha, h1, h2]
    · rw [if_neg h2] at h
      by_cases h3 : t = "match"
      · rw [if_pos h3] at h
        cases ha : _match m b with
        | error e => rw [ha] at h; simp [notifyOk] at h
        | ok ba =>
          rw [ha] at h
          simp only [notifyOk, Except.ok.injEq] at h
          subst b2
          have : (Book.notes { ba with ticker := some m }) = ba.notes := rfl
          simp [on_orderbook_change, this, _match_notes ha, h1, h2, h3]
      · rw [if_neg h3] at h
        by_cases h4 : t = "change"
        · rw [if_pos h4] at h
          cases ha : _change m b with
          | error e => rw [ha] at h; simp [notifyOk] at h
          | ok ba =>
            rw [ha] at h
            simp only [notifyOk, Except.ok.injEq] at h
            subst b2
            simp [on_orderbook_change, _change_notes ha, h1, h2, h3, h4]
        · rw [if_neg h4] at h
          simp only [Except.ok.injEq] at h
          subst b2
          simp [h1, h2, h3, h4]

/-- C5 (amended, for a non-sentinel current sequence): when `on_message`
processes an in-order event without raising, the `on_orderbook_change` hook
fires exactly once if the event's type is `open`, `done`-with-`price`,
`match` or `change` — including when the applied operation was a logical
no-op — and zero times for any other type (or a `done` lacking `price`),
even though those events are processed and advance the sequence. -/
theorem hook_fired_iff_dispatched (snap : Snapshot) (b : Book) (m : Message)
    (s : Int) (t : String) (b' : Book)
    (hcur : b.sequence ≠ -1) (hs : m.sequence = some s) (hin : s = b.sequence + 1)
    (ht : m.type = some t)
    (hok : on_message snap b m = Except.ok b') :
    b'.notes = b.notes +
      (if t = "open" ∨ (t = "done" ∧ m.price.isSome) ∨ t = "match" ∨ t = "change"
       then 1 else 0) := by
  have hnotstale : ¬ s ≤ b.sequence := by omega
  have hnogap : ¬ b.sequence + 1 < s := by omega
  cases happ : applyInOrder b m t with
  | error e =>
    have hred : on_message snap b m = Except.error e := by
      simp [on_message, hs, hcur, hnotstale, hnogap, ht, happ]
    rw [hred] at hok
    simp at hok
  | ok b2 =>
    have hred : on_message snap b m = Except.ok { b2 with sequence := s } := by
      simp [on_message, hs, hcur, hnotstale, hnogap, ht, happ]
    rw [hred] at hok
    simp only [Except.ok.injEq] at hok
    rw [← hok]
    simpa using applyInOrder_notes happ

/-- The `open` message used by the C5 witness. -/
def mOpenB : Message :=
  { sequence := some 11, type := some "open", side := some "buy",
    price := some 99, size := some 2, id := some "B" }

/-- The book reached from `bookWithA` by processing `mOpenB`. -/
def bAfterOpenB : Book :=
  { asks := [],
    bids := [(100, [("A", ordA)]),
             (99, [("B", { id := "B", side := "buy", price := 99, size := 2 })])],
    sequence := 11, ticker := none, notes := 1 }

/-- C5 witness: processing an in-order `open` event fires the hook once. -/
theorem hook_fired_iff_dispatched_witness :
    bAfterOpenB.notes = bookWithA.notes +
      (if ("open" : String) = "open" ∨ (("open" : String) = "done" ∧ mOpenB.price.isSome) ∨
          ("open" : String) = "match" ∨ ("open" : String) = "change"
       then 1 else 0) := by
  exact hook_fired_iff_dispatched emptySnap20 bookWithA mOpenB 11 "open" bAfterOpenB
    (by decide) rfl (by decide) rfl rfl

end Gdax

namespace Gdax

/-! Lookup/update lemmas for the two container types. -/

theorem sget_sset_self (keyf : ℚ → ℚ) (k : ℚ) (v : Level) (s : SDict) :
    sget (sset keyf k v s) k = some v := by
  induction s with
  | nil => simp [sset, sget]
  | cons pl rest ih =>
    obtain ⟨k', v'⟩ := pl
    by_cases hk : k = k'
    · simp [sset, hk, sget]
    · by_cases hlt : keyf k < keyf k'
      · simp [sset, hk, hlt, sget]
      · simp [sset, hk, hlt, sget, ih]

theorem sget_sdel_self (s : SDict) (k : ℚ) : sget (sdel s k) k = none := by
  induction s with
  | nil => rfl
  | cons pl rest ih =>
    obtain ⟨k', v'⟩ := pl
    by_cases hk : k' = k
    · simpa [sdel, List.filter_cons, hk] using ih
    · have hne : ¬ k = k' := fun h => hk h.symm
      simpa [sdel, List.filter_cons, hk, sget, hne] using ih

theorem dictGet_dictSet_self (k : String) (v : Order) (l : Level) :
    dictGet (dictSet k v l) k = some v := by
  induction l with
  | nil => simp [dictSet, dictGet]
  | cons kv rest ih =>
    obtain ⟨k', v'⟩ := kv
    by_cases hk : k = k'
    · simp [dictSet, hk, dictGet]
    · simp [dictSet, hk, dictGet, ih]

theorem dictGet_dictDel_self (l : Level) (k : String) :
    dictGet (dictDel l k) k = none := by
  induction l with
  | nil => rfl
  | cons kv rest ih =>
    obtain ⟨k', v'⟩ := kv
    by_cases hk : k' = k
    · simpa [dictDel, List.filter_cons, hk] using ih
    · have hne : ¬ k = k' := fun h => hk h.symm
      simpa [dictDel, List.filter_cons, hk, dictGet, hne] using ih

theorem sideOf_setSide (b : Book) (sd : String) (d : SDict) :
    sideOf (setSide b sd d) sd = d := by
  by_cases h : sd = "buy" <;> simp [sideOf, setSide, h]

/-- Depth at a price on the side named `sd`, through the source's
`get_bids`/`get_asks` accessors. -/
def depthAt (b : Book) (sd : String) (p : ℚ) : Level :=
  if sd = "buy" then get_bids b p else get_asks b p

theorem depthAt_eq (b : Book) (sd : String) (p : ℚ) :
    depthAt b sd p = (sget (sideOf b sd) p).getD [] := by
  by_cases h : sd = "buy" <;> simp [depthAt, sideOf, get_bids, get_asks, h]

end Gdax

namespace Gdax

/-- C7: for a match whose maker order is present in the level at the event's
price and side, exact equality of resting and traded size removes the order
— and the level itself when it becomes empty, and keeps the remaining level
otherwise — while inequality decrements the order's size in place by the
traded amount. -/
theorem match_semantics (b : Book) (m : Message) (sz p : ℚ) (sd oid : String)
    (lvl : Level) (o : Order)
    (hsz : m.size = some sz) (hp : m.price = some p) (hsd : m.side = some sd)
    (hmk : m.maker_order_id = some oid)
    (hlvl : sget (sideOf b sd) p = some lvl)
    (ho : dictGet lvl oid = some o) :
    ∃ b', _match m b = Except.ok b' ∧
      (o.size = sz →
        dictGet (depthAt b' sd p) oid = none ∧
        (dictDel lvl oid = [] → sget (sideOf b' sd) p = none) ∧
        (dictDel lvl oid ≠ [] → sget (sideOf b' sd) p = some (dictDel lvl oid))) ∧
      (o.size ≠ sz →
        dictGet (depthAt b' sd p) oid = some { o with size := o.size - sz }) := by
  have hlvlne : ¬ lvl = [] := by
    intro h
    rw [h] at ho
    exact Option.noConfusion ho
  by_cases heq : o.size = sz
  · by_cases hdel : dictDel lvl oid = []
    · refine ⟨setSide b sd (sdel (sideOf b sd) p), ?_, ?_, ?_⟩
      · simp [_match, hsz, hp, hsd, hlvl, hmk, ho, hlvlne, heq, hdel]
      · intro _
        refine ⟨?_, fun _ => ?_, fun hne => absurd hdel hne⟩
        · rw [depthAt_eq, sideOf_setSide, sget_sdel_self]
          rfl
        · rw [sideOf_setSide]
          exact sget_sdel_self _ _
      · intro hne
        exact absurd heq hne
    · refine ⟨setSide b sd (sset (keyfOf sd) p (dictDel lvl oid) (sideOf b sd)), ?_, ?_, ?_⟩
      · simp [_match, hsz, hp, hsd, hlvl, hmk, ho, hlvlne, heq, hdel]
      · intro _
        refine ⟨?_, fun h => absurd h hdel, fun _ => ?_⟩
        · rw [depthAt_eq, sideOf_setSide, sget_sset_self, Option.getD_some]
          exact dictGet_dictDel_self lvl oid
        · rw [sideOf_setSide]
          exact sget_sset_self _ _ _ _
      · intro hne
        exact absurd heq hne
  · refine ⟨setSide b sd
      (sset (keyfOf sd) p (dictSet oid { o with size := o.size - sz } lvl) (sideOf b sd)),
      ?_, ?_, ?_⟩
    · simp [_match, hsz, hp, hsd, hlvl, hmk, ho, hlvlne, heq]
    · intro h
      exact absurd h heq
    · intro _
      rw [depthAt_eq, sideOf_setSide, sget_sset_self, Option.getD_some]
      exact dictGet_dictSet_self oid _ lvl

end Gdax

namespace Gdax

/-- The exact-fill match event of the spec's example. -/
def mMatchA : Message :=
  { size := some 5, price := some 100, side := some "buy", maker_order_id := some "A" }

/-- C7 witness: the spec's exact-fill example — matching order A (size 5)
with traded size 5 leaves no order A and no bid level at 100. -/
theorem match_semantics_witness :
    dictGet (depthAt { bookWithA with bids := [] } "buy" 100) "A" = none ∧
    sget (sideOf { bookWithA with bids := [] } "buy") 100 = none := by
  obtain ⟨b', hok, hexact, _⟩ := match_semantics bookWithA mMatchA 5 100 "buy" "A"
    [("A", ordA)] ordA rfl rfl rfl rfl rfl rfl
  have hcomp : _match mMatchA bookWithA = Except.ok { bookWithA with bids := [] } := by rfl
  rw [hcomp] at hok
  injection hok with hb'
  rw [← hb'] at hexact
  obtain ⟨h1, h2, _⟩ := hexact rfl
  exact ⟨h1, h2 rfl⟩

end Gdax

namespace Gdax

/-! Membership lemmas for the container updates, used by the
size-positivity invariant. -/

theorem mem_dictSet {l : Level} {k : String} {v : Order} {kv : String × Order}
    (h : kv ∈ dictSet k v l) : kv = (k, v) ∨ kv ∈ l := by
  induction l with
  | nil => simpa [dictSet] using h
  | cons kv' rest ih =>
    obtain ⟨k', v'⟩ := kv'
    rw [dictSet] at h
    split at h
    · rcases List.mem_cons.mp h with h | h
      · exact Or.inl h
      · exact Or.inr (List.mem_cons_of_mem _ h)
    · rcases List.mem_cons.mp h with h | h
      · exact Or.inr (List.mem_cons.mpr (Or.inl h))
      · rcases ih h with h | h
        · exact Or.inl h
        · exact Or.inr (List.mem_cons_of_mem _ h)

theorem mem_sset {keyf : ℚ → ℚ} {k : ℚ} {v : Level} {s : SDict} {pl : ℚ × Level}
    (h : pl ∈ sset keyf k v s) : pl = (k, v) ∨ pl ∈ s := by
  induction s with
  | nil => simpa [sset] using h
  | cons pl' rest ih =>
    obtain ⟨k', v'⟩ := pl'
    rw [sset] at h
    split at h
    · rcases List.mem_cons.mp h with h | h
      · exact Or.inl h
      · exact Or.inr (List.mem_cons_of_mem _ h)
    · split at h
      · rcases List.mem_cons.mp h with h | h
        · exact Or.inl h
        · exact Or.inr h
      · rcases List.mem_cons.mp h with h | h
        · exact Or.inr (List.mem_cons.mpr (Or.inl h))
        · rcases ih h with h | h
          · exact Or.inl h
          · exact Or.inr (List.mem_cons_of_mem _ h)

theorem sget_mem {s : SDict} {k : ℚ} {l : Level} (h : sget s k = some l) :
    (k, l) ∈ s := by
  induction s with
  | nil => cases h
  | cons pl rest ih =>
    obtain ⟨k', v'⟩ := pl
    rw [sget] at h
    split at h
    · rename_i hk
      injection h with h
      subst h
      subst hk
      exact List.mem_cons_self _ _
    · exact List.mem_cons_of_mem _ (ih h)

/-- C6's invariant on a level: every order has strictly positive size
(non-negative and never zero). -/
def levelPos (lvl : Level) : Prop :=
  ∀ kv ∈ lvl, 0 < (kv.2).size

/-- The positivity invariant on one side of the book. -/
def sizesPos (s : SDict) : Prop :=
  ∀ pl ∈ s, levelPos pl.2

/-- The positivity invariant on the whole book. -/
def bookPos (b : Book) : Prop :=
  sizesPos b.bids ∧ sizesPos b.asks

theorem levelPos_dictSet {lvl : Level} {k : String} {v : Order}
    (hl : levelPos lvl) (hv : 0 < v.size) : levelPos (dictSet k v lvl) := by
  intro kv hkv
  rcases mem_dictSet hkv with rfl | hkv
  · exact hv
  · exact hl kv hkv

theorem levelPos_dictDel {lvl : Level} {k : String} (hl : levelPos lvl) :
    levelPos (dictDel lvl k) :=
  fun kv hkv => hl kv (List.mem_of_mem_filter hkv)

theorem sizesPos_sset {keyf : ℚ → ℚ} {k : ℚ} {lvl : Level} {s : SDict}
    (hs : sizesPos s) (hl : levelPos lvl) : sizesPos (sset keyf k lvl s) := by
  intro pl hpl
  rcases mem_sset hpl with rfl | hpl
  · exact hl
  · exact hs pl hpl

theorem sizesPos_sdel {s : SDict} {k : ℚ} (hs : sizesPos s) : sizesPos (sdel s k) :=
  fun pl hpl => hs pl (List.mem_of_mem_filter hpl)

theorem sizesPos_sget {s : SDict} {k : ℚ} {lvl : Level}
    (hs : sizesPos s) (h : sget s k = some lvl) : levelPos lvl :=
  hs (k, lvl) (sget_mem h)

theorem sizesPos_sideOf {b : Book} (hb : bookPos b) (sd : String) :
    sizesPos (sideOf b sd) := by
  unfold sideOf
  split
  · exact hb.1
  · exact hb.2

theorem bookPos_setSide {b : Book} {sd : String} {d : SDict}
    (hb : bookPos b) (hd : sizesPos d) : bookPos (setSide b sd d) := by
  unfold setSide
  split
  · exact ⟨hd, hb.2⟩
  · exact ⟨hb.1, hd⟩

theorem bookPos_addOrder {b : Book} {o : Order} (hb : bookPos b) (ho : 0 < o.size) :
    bookPos (addOrder b o) := by
  simp only [addOrder]
  split
  · refine bookPos_setSide hb (sizesPos_sset (sizesPos_sideOf hb o.side) ?_)
    intro kv hkv
    rcases List.mem_singleton.mp hkv with rfl
    exact ho
  · next lvl hlvl =>
    exact bookPos_setSide hb (sizesPos_sset (sizesPos_sideOf hb o.side)
      (levelPos_dictSet (sizesPos_sget (sizesPos_sideOf hb o.side) hlvl) ho))

theorem bookPos_foldAdd (sd : String) (l : List SnapEntry) (b : Book)
    (hb : bookPos b) (hl : ∀ e ∈ l, 0 < e.size) :
    bookPos (l.foldl (fun acc e => addOrder acc (snapOrder sd e)) b) := by
  induction l generalizing b with
  | nil => simpa using hb
  | cons e rest ih =>
    simp only [List.foldl_cons]
    exact ih _ (bookPos_addOrder hb (hl e (List.mem_cons_self e rest)))
      (fun e' he' => hl e' (List.mem_cons_of_mem _ he'))

theorem bookPos_reset {snap : Snapshot} {b : Book} (hb : bookPos b)
    (hbs : ∀ e ∈ snap.bids, 0 < e.size) (has : ∀ e ∈ snap.asks, 0 < e.size) :
    bookPos (reset_book snap b) := by
  unfold reset_book
  have h1 := bookPos_foldAdd "buy" snap.bids b hb hbs
  have h2 := bookPos_foldAdd "sell" snap.asks _ h1 has
  exact ⟨h2.1, h2.2⟩

end Gdax

namespace Gdax

/-- C6 (amended): the positivity invariant (every resting order has strictly
positive size, in particular never zero) is preserved by every operation
ONLY under the stated conditions: `_add` needs a positive incoming size,
`_match` needs the traded size not to exceed the maker's resting size,
`_change` needs a positive `new_size`, and the resync needs positive
snapshot sizes.  `_remove` preserves it unconditionally.  Without the
`_change` condition the invariant fails (see the counterexample: a
`new_size` of 0 is stored verbatim), and a `_match` whose traded size
exceeds the resting size leaves a negative size behind. -/
theorem sizes_invariant (b : Book) (m : Message) (snap : Snapshot) (hb : bookPos b) :
    (∀ b', _add m b = Except.ok b' → (∀ q, sizeField m = some q → 0 < q) → bookPos b') ∧
    (∀ b', _remove m b = Except.ok b' → bookPos b') ∧
    (∀ b', _match m b = Except.ok b' →
      (∀ sz p sd oid lvl o, m.size = some sz → m.price = some p → m.side = some sd →
        m.maker_order_id = some oid → sget (sideOf b sd) p = some lvl →
        dictGet lvl oid = some o → sz ≤ o.size) → bookPos b') ∧
    (∀ b', _change m b = Except.ok b' → (∀ q, m.new_size = some q → 0 < q) → bookPos b') ∧
    ((∀ e ∈ snap.bids, 0 < e.size) → (∀ e ∈ snap.asks, 0 < e.size) →
      bookPos (reset_book snap b)) := by
  refine ⟨?_, ?_, ?_, ?_, ?_⟩
  · intro b' hok hpos
    cases hid : idField m with
    | none => simp [_add, hid] at hok
    | some oid =>
      cases hsd : m.side with
      | none => simp [_add, hid, hsd] at hok
      | some sd =>
        cases hp : m.price with
        | none => simp [_add, hid, hsd, hp] at hok
        | some p =>
          cases hsz : sizeField m with
          | none => simp [_add, hid, hsd, hp, hsz] at hok
          | some sz =>
            simp only [_add, hid, hsd, hp, hsz, Except.ok.injEq] at hok
            subst b'
            exact bookPos_addOrder hb (hpos sz hsz)
  · intro b' hok
    cases hoid : m.order_id with
    | none => simp [_remove, hoid] at hok
    | some oid =>
      cases hp : m.price with
      | none => simp [_remove, hoid, hp] at hok
      | some p =>
        cases hsd : m.side with
        | none => simp [_remove, hoid, hp, hsd] at hok
        | some sd =>
          cases hg : sget (sideOf b sd) p with
          | none =>
            simp only [_remove, hoid, hp, hsd, hg, Except.ok.injEq] at hok
            subst b'
            exact hb
          | some lvl =>
            cases hd : dictGet lvl oid with
            | none => simp [_remove, hoid, hp, hsd, hg, hd] at hok
            | some o =>
              by_cases hdel : dictDel lvl oid = []
              · simp only [_remove, hoid, hp, hsd, hg, hd, if_pos hdel,
                  Except.ok.injEq] at hok
                subst b'
                exact bookPos_setSide hb (sizesPos_sdel (sizesPos_sideOf hb sd))
              · simp only [_remove, hoid, hp, hsd, hg, hd, if_neg hdel,
                  Except.ok.injEq] at hok
                subst b'
                exact bookPos_setSide hb (sizesPos_sset (sizesPos_sideOf hb sd)
                  (levelPos_dictDel (sizesPos_sget (sizesPos_sideOf hb sd) hg)))
  · intro b' hok hbound
    cases hsz : m.size with
    | none => simp [_match, hsz] at hok
    | some sz =>
      cases hp : m.price with
      | none => simp [_match, hsz, hp] at hok
      | some p =>
        cases hsd : m.side with
        | none => simp [_match, hsz, hp, hsd] at hok
        | some sd =>
          cases hg : sget (sideOf b sd) p with
          | none =>
            simp only [_match, hsz, hp, hsd, hg, Except.ok.injEq] at hok
            subst b'
            exact hb
          | some lvl =>
            by_cases hemp : lvl = []
            · simp only [_match, hsz, hp, hsd, hg, if_pos hemp, Except.ok.injEq] at hok
              subst b'
              exact hb
            · cases hmk : m.maker_order_id with
              | none => simp [_match, hsz, hp, hsd, hg, hemp, hmk] at hok
              | some maker =>
                cases hd : dictGet lvl maker with
                | none => simp [_match, hsz, hp, hsd, hg, hemp, hmk, hd] at hok
                | some o =>
                  have hle : sz ≤ o.size := hbound sz p sd maker lvl o hsz hp hsd hmk hg hd
                  by_cases heq : o.size = sz
                  · by_cases hdel : dictDel lvl maker = []
                    · simp only [_match, hsz, hp, hsd, hg, if_neg hemp, hmk, hd,
                        if_pos heq, if_pos hdel, Except.ok.injEq] at hok
                      subst b'
                      exact bookPos_setSide hb (sizesPos_sdel (sizesPos_sideOf hb sd))
                    · simp only [_match, hsz, hp, hsd, hg, if_neg hemp, hmk, hd,
                        if_pos heq, if_neg hdel, Except.ok.injEq] at hok
                      subst b'
                      exact bookPos_setSide hb (sizesPos_sset (sizesPos_sideOf hb sd)
                        (levelPos_dictDel (sizesPos_sget (sizesPos_sideOf hb sd) hg)))
                  · have hlt : sz < o.size := lt_of_le_of_ne hle (fun h => heq h.symm)
                    have hposz : 0 < o.size - sz := by linarith
                    simp only [_match, hsz, hp, hsd, hg, if_neg hemp, hmk, hd,
                      if_neg heq, Except.ok.injEq] at hok
                    subst b'
                    exact bookPos_setSide hb (sizesPos_sset (sizesPos_sideOf hb sd)
                      (levelPos_dictSet (sizesPos_sget (sizesPos_sideOf hb sd) hg) hposz))
  · intro b' hok hpos
    cases hns : m.new_size with
    | none =>
      simp only [_change, hns, Except.ok.injEq] at hok
      subst b'
      exact hb
    | some ns =>
      cases hp : m.price with
      | none =>
        simp only [_change, hns, hp, Except.ok.injEq] at hok
        subst b'
        exact hb
      | some p =>
        cases hsd : m.side with
        | none => simp [_change, hns, hp, hsd] at hok
        | some sd =>
          cases hg : sget (sideOf b sd) p with
          | none => simp [_change, hns, hp, hsd, hg] at hok
          | some lvl =>
            cases hoid : m.order_id with
            | none => simp [_change, hns, hp, hsd, hg, hoid] at hok
            | some oid =>
              cases hd : dictGet lvl oid with
              | none =>
                simp only [_change, hns, hp, hsd, hg, hoid, hd, Except.ok.injEq] at hok
                subst b'
                exact hb
              | some o =>
                simp only [_change, hns, hp, hsd, hg, hoid, hd, Except.ok.injEq] at hok
                subst b'
                exact bookPos_setSide hb (sizesPos_sset (sizesPos_sideOf hb sd)
                  (levelPos_dictSet (sizesPos_sget (sizesPos_sideOf hb sd) hg) (hpos ns hns)))
  · intro hbs has
    exact bookPos_reset hb hbs has

instance (lvl : Level) : Decidable (levelPos lvl) :=
  inferInstanceAs (Decidable (∀ kv ∈ lvl, 0 < (kv.2).size))

instance (s : SDict) : Decidable (sizesPos s) :=
  inferInstanceAs (Decidable (∀ pl ∈ s, levelPos pl.2))

instance (b : Book) : Decidable (bookPos b) :=
  inferInstanceAs (Decidable (sizesPos b.bids ∧ sizesPos b.asks))

/-- The remove event used by the C6 witness. -/
def mRemoveA : Message :=
  { order_id := some "A", price := some 100, side := some "buy" }

/-- C6 witness: removing order A keeps the invariant on the emptied book,
and a resync from a positive-size snapshot keeps it on a fresh book. -/
theorem sizes_invariant_witness :
    bookPos { bookWithA with bids := [] } ∧ bookPos (reset_book snapA10 initBook) := by
  constructor
  · exact (sizes_invariant bookWithA mRemoveA snapA10 (by decide)).2.1
      { bookWithA with bids := [] } rfl
  · exact (sizes_invariant initBook mRemoveA snapA10 (by decide)).2.2.2.2
      (by decide) (by decide)

end Gdax

namespace Gdax

/-- Strict sortedness of a side's keys under its key function — the
invariant the `SortedDict` maintains (ascending in `keyf`, so bids with
`operator.neg` are descending in price). -/
def sdSortedBy (keyf : ℚ → ℚ) (s : SDict) : Prop :=
  List.Chain' (· < ·) ((skeys s).map keyf)

/-- Boolean check of strict key sortedness, for evaluation on concrete
books. -/
def sortedKeysB (keyf : ℚ → ℚ) : List ℚ → Bool
  | [] => true
  | [_] => true
  | a :: b' :: rest => decide (keyf a < keyf b') && sortedKeysB keyf (b' :: rest)

theorem chain'_iff_sortedKeysB (keyf : ℚ → ℚ) (l : List ℚ) :
    List.Chain' (· < ·) (l.map keyf) ↔ sortedKeysB keyf l = true := by
  induction l with
  | nil => simp [sortedKeysB]
  | cons a rest ih =>
    cases rest with
    | nil => simp [sortedKeysB]
    | cons b' rest' =>
      simp only [List.map_cons] at ih
      simp [sortedKeysB, List.chain'_cons, ih]

instance (keyf : ℚ → ℚ) (s : SDict) : Decidable (sdSortedBy keyf s) :=
  decidable_of_iff (sortedKeysB keyf (skeys s) = true)
    (chain'_iff_sortedKeysB keyf (skeys s)).symm

theorem head_key_min (keyf : ℚ → ℚ) (l : List ℚ)
    (h : List.Chain' (· < ·) (l.map keyf)) (p : ℚ) (hp : l.head? = some p) :
    ∀ q ∈ l, keyf p ≤ keyf q := by
  cases l with
  | nil => cases hp
  | cons a rest =>
    simp only [List.head?_cons, Option.some.injEq] at hp
    subst hp
    intro q hq
    rcases List.mem_cons.mp hq with rfl | hq
    · exact le_refl _
    · rw [List.map_cons, List.chain'_iff_pairwise] at h
      exact le_of_lt ((List.pairwise_cons.mp h).1 (keyf q) (List.mem_map_of_mem keyf hq))

/-- C9: under each side's `SortedDict` ordering invariant, `get_bid` is the
highest price on the bid side and `get_ask` the lowest price on the ask
side; each is `none` exactly when its side is empty. -/
theorem best_bid_ask (b : Book)
    (hb : sdSortedBy Neg.neg b.bids) (ha : sdSortedBy id b.asks) :
    (get_bid b = none ↔ b.bids = []) ∧
    (∀ p, get_bid b = some p → p ∈ skeys b.bids ∧ ∀ q ∈ skeys b.bids, q ≤ p) ∧
    (get_ask b = none ↔ b.asks = []) ∧
    (∀ p, get_ask b = some p → p ∈ skeys b.asks ∧ ∀ q ∈ skeys b.asks, p ≤ q) := by
  refine ⟨?_, ?_, ?_, ?_⟩
  · simp [get_bid, skeys]
  · intro p hp
    have hmem : p ∈ skeys b.bids := by
      cases hsk : skeys b.bids with
      | nil => rw [get_bid, hsk] at hp; cases hp
      | cons a rest =>
        rw [get_bid, hsk] at hp
        simp only [List.head?_cons, Option.some.injEq] at hp
        subst hp
        exact List.mem_cons_self _ _
    refine ⟨hmem, ?_⟩
    intro q hq
    have hk := head_key_min Neg.neg (skeys b.bids) hb p hp q hq
    simpa using hk
  · simp [get_ask, skeys]
  · intro p hp
    have hmem : p ∈ skeys b.asks := by
      cases hsk : skeys b.asks with
      | nil => rw [get_ask, hsk] at hp; cases hp
      | cons a rest =>
        rw [get_ask, hsk] at hp
        simp only [List.head?_cons, Option.some.injEq] at hp
        subst hp
        exact List.mem_cons_self _ _
    refine ⟨hmem, ?_⟩
    intro q hq
    have hk := head_key_min id (skeys b.asks) ha p hp q hq
    simpa using hk

/-- The book of the spec's best-bid/ask example: bids added at 100, 101,
99 and asks at 105, 102. -/
def bookC9 : Book :=
  [({ id := "b1", side := "buy", price := 100, size := 1 } : Order),
   { id := "b2", side := "buy", price := 101, size := 1 },
   { id := "b3", side := "buy", price := 99, size := 1 },
   { id := "a1", side := "sell", price := 105, size := 1 },
   { id := "a2", side := "sell", price := 102, size := 1 }].foldl addOrder initBook

/-- C9 witness: on the example book, the best bid is 101 (the maximum bid
price) and the best ask is 102 (the minimum ask price). -/
theorem best_bid_ask_witness :
    get_bid bookC9 = some 101 ∧ get_ask bookC9 = some 102 ∧
    (101 : ℚ) ∈ skeys bookC9.bids ∧ (∀ q ∈ skeys bookC9.bids, q ≤ 101) ∧
    (∀ q ∈ skeys bookC9.asks, 102 ≤ q) := by
  have h1 := (best_bid_ask bookC9 (by decide) (by decide)).2.1 101 (by decide)
  have h2 := (best_bid_ask bookC9 (by decide) (by decide)).2.2.2 102 (by decide)
  exact ⟨by decide, by decide, h1.1, h1.2, h2.2⟩

end Gdax
